import Mathlib

/-!
# SPEC card controller: scatter-gather DMA descriptor builder and transfer orchestration

A shallow embedding of `src/libSpec/SpecController.cpp` (class `SpecController`):
`prepDmaList`, `startDma`, `getDmaStatus`, `writeDma`, `readDma`, `configure`, and the
register accessors `write32` / `read32`.

Machine integers are natural numbers (or integers for `int`) with the reductions modulo
`2^32` / `2^64` that the C++ types perform written out.
-/

namespace SpecController

/-! ## Machine integer conversions -/

/-- Conversion of an integer to `uint32_t` (reduction modulo `2^32`). -/
def toUInt32 (z : Int) : Nat := (z % 4294967296).toNat

/-- Conversion of an unsigned value to `int` (32-bit two's complement). -/
def toInt32 (n : Nat) : Int :=
  if n % 4294967296 < 2147483648 then ((n % 4294967296 : Nat) : Int)
  else ((n % 4294967296 : Nat) : Int) - 4294967296

/-- Reduction of an integer to the range of `int` (32-bit two's complement), which is what
the compiled `int` arithmetic yields when a result leaves that range. -/
def wrapInt32 (z : Int) : Int := (z + 2147483648) % 4294967296 - 2147483648

/-! ## Data model -/

/-- Modelled from the spec: `struct dma_linked_list` is declared in `SpecController.h`,
which is not among the sources. Section 6 of the spec gives the wire format: seven
32-bit words `carrier_start`, `host_start_low`, `host_start_high`, `length`,
`host_next_low`, `host_next_high`, `attr`; the field names are those used by
`prepDmaList`. -/
structure dma_linked_list where
  carrier_start : Nat
  host_start_l : Nat
  host_start_h : Nat
  length : Nat
  host_next_l : Nat
  host_next_h : Nat
  attr : Nat
deriving DecidableEq, Repr

/-- The value of `sizeof(struct dma_linked_list)`: seven 32-bit words. -/
def sizeofDesc : Nat := 28

/-- Modelled from the spec: one scatter-gather entry of a pinned user buffer, as reported
by `UserMemory::getSGentryAddress(i)` and `UserMemory::getSGentrySize(i)` (the class is
part of the driver layer and not among the sources): a physical address and a byte
length. -/
structure SGEntry where
  addr : Nat
  size : Nat
deriving DecidableEq, Repr

/-- Modelled from the spec: the pinned user buffer, an ordered sequence of scatter-gather
entries (`UserMemory`, driver layer). -/
structure UserMemory where
  sg : List SGEntry
deriving DecidableEq, Repr

/-- Number of scatter-gather entries, `UserMemory::getSGcount()`. -/
def UserMemory.getSGcount (um : UserMemory) : Nat := um.sg.length

/-- Modelled from the spec: the pinned descriptor buffer (`KernelMemory`, driver layer):
its physical address (`getPhysicalAddress()`) and its contents viewed as an array of
descriptors (`(struct dma_linked_list*) km->getBuffer()`). -/
structure KernelMemory where
  physicalAddress : Nat
  buffer : Nat → dma_linked_list

/-! ## `prepDmaList` -/

/-- Local variables of `prepDmaList`: the descriptor array `llist`, the running device
offset `dev_off` (`uint32_t`), the slot index `j`, and the per-entry variables `sg_size`
(`int`) and `sg_addr_l` (`uint32_t`). The index `j` is kept as a natural number: a chain
has far fewer than `2^32` descriptors. -/
structure PrepState where
  llist : Nat → dma_linked_list
  dev_off : Nat
  j : Nat
  sg_size : Int
  sg_addr_l : Nat

/-- Store into `llist[j]`. -/
def setSlot (llist : Nat → dma_linked_list) (j : Nat) (d : dma_linked_list) :
    Nat → dma_linked_list :=
  fun k => if k = j then d else llist k

/-- The value `write << 1` for the `bool` argument `write`. -/
def writeBit (write : Bool) : Nat := if write then 2 else 0

/-- One pass through the body of the `do { ... } while (sg_size > 0)` loop
(lines 241-266). The statement `sg_size = sg_size - 4096` is `int` arithmetic: for an
`sg_size` in `[-2^31, -2^31 + 4096)` (entry sizes in `[2^31, 2^31 + 4096)`) the difference
leaves the range of `int` and wraps to a positive value, as the compiled code does. -/
def chunkBody (physAddr sg_addr_h : Nat) (write : Bool) (s : PrepState) : PrepState :=
  let fixed_size : Nat := if s.sg_size > 4096 then 4096 else toUInt32 s.sg_size
  let next : Nat := (physAddr + sizeofDesc * (s.j + 1)) % 18446744073709551616
  { llist := setSlot s.llist s.j
      { carrier_start := s.dev_off
        host_start_l := s.sg_addr_l
        host_start_h := sg_addr_h
        length := fixed_size
        host_next_l := next % 4294967296
        host_next_h := next / 4294967296
        attr := 1 + writeBit write }
    dev_off := (s.dev_off + fixed_size) % 4294967296
    j := s.j + 1
    sg_size := wrapInt32 (s.sg_size - 4096)
    sg_addr_l := (s.sg_addr_l + 4096) % 4294967296 }

/-- Bound on the passes the loop still makes: a positive `sg_size` decreases with every
pass, and an `sg_size` that is not positive can become positive only once, by wrapping. -/
def loopMeasure (sg_size : Int) : Nat :=
  if 0 < sg_size then sg_size.toNat else 4294967296

/-- The `do { ... } while (sg_size > 0)` loop: the body runs once, and again as long as
the remaining size is positive. -/
def doWhile (physAddr sg_addr_h : Nat) (write : Bool) (s : PrepState) : PrepState :=
  if 0 < (chunkBody physAddr sg_addr_h write s).sg_size then
    doWhile physAddr sg_addr_h write (chunkBody physAddr sg_addr_h write s)
  else chunkBody physAddr sg_addr_h write s
termination_by loopMeasure s.sg_size
decreasing_by
  simp only [chunkBody, wrapInt32, loopMeasure] at *
  split_ifs <;> omega

/-- One iteration of the `for` loop over the scatter-gather entries (lines 237-267). -/
def sgStep (physAddr : Nat) (write : Bool) (s : PrepState) (e : SGEntry) : PrepState :=
  doWhile physAddr ((e.addr / 4294967296) % 4294967296) write
    { s with sg_size := toInt32 e.size, sg_addr_l := e.addr % 4294967296 }

/-- The `for` loop over all scatter-gather entries. -/
def forLoop (physAddr : Nat) (write : Bool) : PrepState → List SGEntry → PrepState
  | s, [] => s
  | s, e :: es => forLoop physAddr write (sgStep physAddr write s e) es

/-- Index `j - 1` in `unsigned int` arithmetic. -/
def lastIndex (j : Nat) : Nat := if j = 0 then 4294967295 else j - 1

/-- The statements after the loops that mark the last item (lines 270-272). -/
def markLast (write : Bool) (s : PrepState) : PrepState :=
  let i := lastIndex s.j
  let d := s.llist i
  let d1 : dma_linked_list :=
    { carrier_start := d.carrier_start
      host_start_l := d.host_start_l
      host_start_h := d.host_start_h
      length := d.length
      host_next_l := 0
      host_next_h := 0
      attr := 0 + writeBit write }
  { llist := setSlot s.llist i d1
    dev_off := s.dev_off
    j := s.j
    sg_size := s.sg_size
    sg_addr_l := s.sg_addr_l }

/-- The function `SpecController::prepDmaList(um, km, off, write)`. The result carries the
descriptor array (the returned `llist`) and the number `j` of descriptors written. -/
def prepDmaList (um : UserMemory) (km : KernelMemory) (off : Nat) (write : Bool) :
    PrepState :=
  markLast write
    (forLoop km.physicalAddress write
      { llist := km.buffer
        dev_off := (off * 4) % 4294967296
        j := 0
        sg_size := 0
        sg_addr_l := 0 }
      um.sg)

/-! ## Invariants of the descriptor array -/

/-- Every slot below `j` holds an in-chain descriptor: attribute `1 + (write << 1)` and a
next-pointer that is the physical address of the following slot, split in halves. -/
def ChainInv (physAddr : Nat) (write : Bool) (s : PrepState) : Prop :=
  ∀ k, k < s.j →
    (s.llist k).attr = 1 + writeBit write ∧
    (s.llist k).host_next_l = (physAddr + sizeofDesc * (k + 1)) % 4294967296 ∧
    (s.llist k).host_next_h = (physAddr + sizeofDesc * (k + 1)) / 4294967296 % 4294967296

/-! ## Controller state, registers and driver layer -/

/-- The two mapped address regions of the card. -/
inductive Bar where
  | bar0
  | bar4
deriving DecidableEq, Repr

/-- The word offsets of the DMA registers in BAR0 and the DMA status codes. They are
macros of `SpecController.h`, which is not among the sources, and are taken as
parameters. -/
structure DmaRegMap where
  DMACTRLR : Nat
  DMASTATR : Nat
  DMACSTARTR : Nat
  DMAIDLE : Int
  DMADONE : Int
  DMAABORTED : Int

/-- The byte addresses of the bridge-chipset registers in BAR4. They are macros of
`GennumRegMap.h`, which is not among the sources, and are taken as parameters;
`GNINT_CFG` is the macro that maps a vector slot to its register address. -/
structure GennumRegMap where
  GNPPCI_MSI_CONTROL : Nat
  GNPPCI_MSI_DATA : Nat
  GNINT_STAT : Nat
  GNINT_CFG : Nat → Nat
  GNGPIO_BYPASS_MODE : Nat
  GNGPIO_DIRECTION_MODE : Nat
  GNGPIO_OUTPUT_ENABLE : Nat
  GNGPIO_INT_TYPE : Nat
  GNGPIO_INT_VALUE : Nat
  GNGPIO_INT_ON_ANY : Nat
  GNGPIO_INT_MASK_SET : Nat
  GNGPIO_INT_MASK_CLR : Nat
  GNGPIO_INT_STATUS : Nat

/-- What the card and the host memory hold: the words of the two mapped regions, indexed
by word offset, and the contents of the caller's buffer `data`. -/
structure Hardware where
  bar0 : Nat → Nat
  bar4 : Nat → Nat
  data : Nat → Nat

/-- An access to the card or a call into the driver layer, as the controller issues it. -/
inductive Action where
  | read32 (bar : Bar) (off : Nat)
  | write32 (bar : Bar) (off val : Nat)
  | memcpy (bar : Bar) (off : Nat) (words : List Nat)
  | mapUserMemory (bytes : Nat)
  | allocKernelMemory (bytes : Nat)
  | syncKernelMemory
  | syncUserMemory
  | waitForInterrupt (line : Nat)
  | clearInterruptQueue (line : Nat)
  | usleep (us : Nat)
  | deleteKernelMemory
  | deleteUserMemory
  | cerrAborted (status : Int)
deriving DecidableEq, Repr

/-- State seen by the controller: the hardware, and the sequence of accesses and driver
calls issued so far. -/
structure SpecState where
  hw : Hardware
  trace : List Action

/-- Modelled from the spec: the driver layer (`SpecDevice`, not among the sources):
pinning the caller's buffer of a given byte length yields its scatter-gather description,
allocating kernel memory of a given byte length yields a descriptor buffer, and
`waitForInterrupt` returns once the card has raised the interrupt, by which time the card
has acted on the hardware in a way the controller does not determine. -/
structure SpecDevice where
  mapUserMemory : Nat → UserMemory
  allocKernelMemory : Nat → KernelMemory
  waitForInterrupt : Nat → Hardware → Hardware

/-- Append an action to the trace. -/
def SpecState.log (s : SpecState) (a : Action) : SpecState :=
  { hw := s.hw, trace := s.trace ++ [a] }

/-- Store a word at a word offset of a store. -/
def storeWord (m : Nat → Nat) (off val : Nat) : Nat → Nat :=
  fun k => if k = off then val else m k

/-- Store consecutive words starting at a word offset. -/
def storeWords (m : Nat → Nat) (off : Nat) : List Nat → (Nat → Nat)
  | [] => m
  | v :: vs => storeWords (storeWord m off v) (off + 1) vs

/-- The word read at a word offset of a region. -/
def Hardware.load (hw : Hardware) : Bar → Nat → Nat
  | Bar.bar0, off => hw.bar0 off
  | Bar.bar4, off => hw.bar4 off

/-- The hardware after a word is stored at a word offset of a region. -/
def Hardware.store (hw : Hardware) : Bar → Nat → Nat → Hardware
  | Bar.bar0, off, val => { bar0 := storeWord hw.bar0 off val, bar4 := hw.bar4, data := hw.data }
  | Bar.bar4, off, val => { bar0 := hw.bar0, bar4 := storeWord hw.bar4 off val, data := hw.data }

/-- The function `SpecController::write32(bar, off, val)`: `*addr = val`. -/
def write32 (bar : Bar) (off val : Nat) (s : SpecState) : SpecState :=
  { hw := s.hw.store bar off val, trace := s.trace ++ [Action.write32 bar off val] }

/-- The function `SpecController::read32(bar, off)`: the word read, and the state with the
read recorded. -/
def read32 (bar : Bar) (off : Nat) (s : SpecState) : Nat × SpecState :=
  (s.hw.load bar off, s.log (Action.read32 bar off))

/-- The seven words of a descriptor in memory order. -/
def descWords (d : dma_linked_list) : List Nat :=
  [d.carrier_start, d.host_start_l, d.host_start_h, d.length, d.host_next_l,
    d.host_next_h, d.attr]

/-- The statement `memcpy(addr, &llist[0], sizeof(struct dma_linked_list))` with
`addr = (uint32_t*) bar0 + DMACSTARTR`. -/
def memcpyFirst (rm : DmaRegMap) (d : dma_linked_list) (s : SpecState) : SpecState :=
  { hw := { bar0 := storeWords s.hw.bar0 rm.DMACSTARTR (descWords d)
            bar4 := s.hw.bar4
            data := s.hw.data }
    trace := s.trace ++ [Action.memcpy Bar.bar0 rm.DMACSTARTR (descWords d)] }

/-- The function `SpecController::startDma()`: `*addr = 0x1` at `bar0 + DMACTRLR`. -/
def startDma (rm : DmaRegMap) (s : SpecState) : SpecState :=
  write32 Bar.bar0 rm.DMACTRLR 1 s

/-- The function `SpecController::getDmaStatus()`: the word at `bar0 + DMASTATR`. -/
def getDmaStatus (rm : DmaRegMap) (s : SpecState) : Nat × SpecState :=
  read32 Bar.bar0 rm.DMASTATR s

/-- The call `spec->waitForInterrupt(line)`. -/
def waitForInterrupt (spec : SpecDevice) (line : Nat) (s : SpecState) : SpecState :=
  { hw := spec.waitForInterrupt line s.hw
    trace := s.trace ++ [Action.waitForInterrupt line] }

/-- The descriptor chain `writeDma` builds: `prepDmaList(um, km, off, 1)` on the pinned
buffer of `words*4` bytes and a kernel buffer of `sizeof * getSGcount()` bytes
(lines 57-60). -/
def writeDmaList (spec : SpecDevice) (off words : Nat) : PrepState :=
  prepDmaList (spec.mapUserMemory (words * 4))
    (spec.allocKernelMemory (sizeofDesc * (spec.mapUserMemory (words * 4)).getSGcount))
    off true

/-- The descriptor chain `readDma` builds: `prepDmaList(um, km, off, 0)` (lines 83-86). -/
def readDmaList (spec : SpecDevice) (off words : Nat) : PrepState :=
  prepDmaList (spec.mapUserMemory (words * 4))
    (spec.allocKernelMemory (sizeofDesc * (spec.mapUserMemory (words * 4)).getSGcount))
    off false

/-- The test `status == DMAIDLE || status == DMADONE || status == DMAABORTED` on the
`int status`. -/
def statusAllowed (rm : DmaRegMap) (status : Int) : Bool :=
  status == rm.DMAIDLE || status == rm.DMADONE || status == rm.DMAABORTED

/-- The function `SpecController::writeDma(off, data, words)`. -/
def writeDma (rm : DmaRegMap) (gn : GennumRegMap) (spec : SpecDevice) (off words : Nat)
    (s : SpecState) : SpecState :=
  let status : Int := toInt32 (getDmaStatus rm s).1
  let s1 := (getDmaStatus rm s).2
  if statusAllowed rm status then
    let s2 := s1.log (Action.mapUserMemory (words * 4))
    let s3 := s2.log (Action.allocKernelMemory
      (sizeofDesc * (spec.mapUserMemory (words * 4)).getSGcount))
    let llist := (writeDmaList spec off words).llist
    let s4 := s3.log Action.syncKernelMemory
    let s5 := memcpyFirst rm (llist 0) s4
    let s6 := startDma rm s5
    let s7 := waitForInterrupt spec 0 s6
    let s8 := (read32 Bar.bar4 (gn.GNGPIO_INT_STATUS / 4) s7).2
    (s8.log Action.deleteKernelMemory).log Action.deleteUserMemory
  else
    s1.log (Action.cerrAborted status)

/-- The function `SpecController::readDma(off, data, words)`. -/
def readDma (rm : DmaRegMap) (gn : GennumRegMap) (spec : SpecDevice) (off words : Nat)
    (s : SpecState) : SpecState :=
  let status : Int := toInt32 (getDmaStatus rm s).1
  let s1 := (getDmaStatus rm s).2
  if statusAllowed rm status then
    let s2 := s1.log (Action.mapUserMemory (words * 4))
    let s3 := s2.log (Action.allocKernelMemory
      (sizeofDesc * (spec.mapUserMemory (words * 4)).getSGcount))
    let llist := (readDmaList spec off words).llist
    let s4 := s3.log Action.syncKernelMemory
    let s5 := memcpyFirst rm (llist 0) s4
    let s6 := startDma rm s5
    let s7 := waitForInterrupt spec 0 s6
    let s8 := (read32 Bar.bar4 (gn.GNGPIO_INT_STATUS / 4) s7).2
    let s9 := s8.log Action.syncUserMemory
    (s9.log Action.deleteKernelMemory).log Action.deleteUserMemory
  else
    s1.log (Action.cerrAborted status)

/-! ## `configure` -/

/-- The loop `for (int i=0; i<8; i++) write32(bar4, GNINT_CFG(i)/4, 0x0)`. -/
def resetIntxVectors (gn : GennumRegMap) (s : SpecState) : SpecState :=
  (List.range 8).foldl (fun t i => write32 Bar.bar4 (gn.GNINT_CFG i / 4) 0 t) s

/-- The first statement of `configure` (lines 151-156): write the MSI control value
unless the register already reads it. -/
def activateMsi (gn : GennumRegMap) (s : SpecState) : SpecState :=
  if (read32 Bar.bar4 (gn.GNPPCI_MSI_CONTROL / 4) s).1 ≠ 0x00A55805 then
    write32 Bar.bar4 (gn.GNPPCI_MSI_CONTROL / 4) 0x00A55805
      (read32 Bar.bar4 (gn.GNPPCI_MSI_CONTROL / 4) s).2
  else (read32 Bar.bar4 (gn.GNPPCI_MSI_CONTROL / 4) s).2

/-- The statements of `configure` after the vector reset (lines 162-200), the masked read
`read32(bar4, GNPPCI_MSI_DATA/4) & 0x3` selecting the vector slot. -/
def configureGpio (gn : GennumRegMap) (s2 : SpecState) : SpecState :=
  let d := read32 Bar.bar4 (gn.GNPPCI_MSI_DATA / 4) s2
  let s3 := write32 Bar.bar4 (gn.GNINT_CFG (d.1 % 4) / 4) 0x800c d.2
  let s4 := write32 Bar.bar4 (gn.GNGPIO_BYPASS_MODE / 4) 0x0000 s3
  let s5 := write32 Bar.bar4 (gn.GNGPIO_DIRECTION_MODE / 4) 0xFFFF s4
  let s6 := write32 Bar.bar4 (gn.GNGPIO_OUTPUT_ENABLE / 4) 0x0000 s5
  let s7 := write32 Bar.bar4 (gn.GNGPIO_INT_TYPE / 4) 0x0 s6
  let s8 := write32 Bar.bar4 (gn.GNGPIO_INT_VALUE / 4) 0x300 s7
  let s9 := write32 Bar.bar4 (gn.GNGPIO_INT_ON_ANY / 4) 0x0 s8
  let s10 := write32 Bar.bar4 (gn.GNGPIO_INT_MASK_SET / 4) 0xFFFF s9
  let s11 := write32 Bar.bar4 (gn.GNGPIO_INT_MASK_CLR / 4) 0x0300 s10
  let s12 := write32 Bar.bar4 (gn.GNINT_STAT / 4) 0xFFF0 s11
  let s13 := write32 Bar.bar4 (gn.GNINT_STAT / 4) 0x0000 s12
  let s14 := (read32 Bar.bar4 (gn.GNINT_STAT / 4) s13).2
  let s15 := (read32 Bar.bar4 (gn.GNGPIO_INT_STATUS / 4) s14).2
  let s16 := s15.log (Action.usleep 200)
  let s17 := s16.log (Action.clearInterruptQueue 0)
  s17.log (Action.clearInterruptQueue 1)

/-- The function `SpecController::configure()` (lines 145-201). -/
def configure (gn : GennumRegMap) (s : SpecState) : SpecState :=
  configureGpio gn (resetIntxVectors gn (activateMsi gn s))

/-- The device offsets recorded so far: the running offset stays below `2^32`, the first
descriptor starts at `off4`, each later one starts where the previous one ends modulo
`2^32`, and the running offset is where the last one ends modulo `2^32`. -/
def CarrierInv (off4 : Nat) (s : PrepState) : Prop :=
  s.dev_off < 4294967296 ∧
  (s.j = 0 → s.dev_off = off4) ∧
  (0 < s.j → (s.llist 0).carrier_start = off4 ∧
    s.dev_off =
      ((s.llist (s.j - 1)).carrier_start + (s.llist (s.j - 1)).length) % 4294967296) ∧
  ∀ i, i + 1 < s.j →
    (s.llist (i + 1)).carrier_start =
      ((s.llist i).carrier_start + (s.llist i).length) % 4294967296

/-- Every descriptor written so far ends at or below the running device offset. -/
def BelowInv (s : PrepState) : Prop :=
  ∀ i, i < s.j → (s.llist i).carrier_start + (s.llist i).length ≤ s.dev_off

/-! ## Concrete inputs -/

/-- A descriptor buffer at physical address `0x2000` whose memory is all zero. -/
def zeroKernelMemory : KernelMemory :=
  { physicalAddress := 0x2000, buffer := fun _ => ⟨0, 0, 0, 0, 0, 0, 0⟩ }

/-- Local variables of `prepDmaList` before the first entry, for a zeroed buffer. -/
def zeroPrepState : PrepState :=
  { llist := fun _ => ⟨0, 0, 0, 0, 0, 0, 0⟩, dev_off := 0, j := 0, sg_size := 0, sg_addr_l := 0 }

/-- A driver that pins every buffer as one physically contiguous segment at `0x10000`,
hands out the zeroed descriptor buffer, and a card that leaves the hardware as it is. -/
def contiguousDevice : SpecDevice :=
  { mapUserMemory := fun bytes => { sg := [{ addr := 0x10000, size := bytes }] }
    allocKernelMemory := fun _ => zeroKernelMemory
    waitForInterrupt := fun _ hw => hw }

/-- DMA register offsets and status codes of the SPEC firmware: control, status and
carrier-start registers at words 0, 1, 2; IDLE = 0, DONE = 1, ABORTED = 4. -/
def specDmaRegMap : DmaRegMap :=
  { DMACTRLR := 0, DMASTATR := 1, DMACSTARTR := 2, DMAIDLE := 0, DMADONE := 1,
    DMAABORTED := 4 }

/-- Register addresses of the GN4124 bridge. -/
def gn4124RegMap : GennumRegMap :=
  { GNPPCI_MSI_CONTROL := 0x48
    GNPPCI_MSI_DATA := 0x54
    GNINT_STAT := 0x814
    GNINT_CFG := fun x => 0x820 + 4 * x
    GNGPIO_BYPASS_MODE := 0xA00
    GNGPIO_DIRECTION_MODE := 0xA04
    GNGPIO_OUTPUT_ENABLE := 0xA08
    GNGPIO_INT_TYPE := 0xA24
    GNGPIO_INT_VALUE := 0xA28
    GNGPIO_INT_ON_ANY := 0xA2C
    GNGPIO_INT_MASK_SET := 0xA1C
    GNGPIO_INT_MASK_CLR := 0xA18
    GNGPIO_INT_STATUS := 0xA20 }

/-- A state in which every register and every word of the caller's buffer reads `v` and
nothing has been issued yet. -/
def constState (v : Nat) : SpecState :=
  { hw := { bar0 := fun _ => v, bar4 := fun _ => v, data := fun _ => v }, trace := [] }

/-! ## Stores performed by `configure` -/

/-- Apply a sequence of (word offset, value) stores to a store, in order. -/
def applyWrites (m : Nat → Nat) : List (Nat × Nat) → (Nat → Nat)
  | [] => m
  | w :: ws => applyWrites (storeWord m w.1 w.2) ws

/-- The value of the last store to offset `x` in a sequence of stores, if there is one. -/
def lastWrite (x : Nat) : List (Nat × Nat) → Option Nat
  | [] => none
  | w :: ws => match lastWrite x ws with
    | some v => some v
    | none => if x = w.1 then some w.2 else none

/-- The stores of `configure` up to the read of the MSI data register: the MSI control
value and the eight zeroed vector slots. -/
def configureWritesBefore (gn : GennumRegMap) : List (Nat × Nat) :=
  [(gn.GNPPCI_MSI_CONTROL / 4, 0x00A55805),
   (gn.GNINT_CFG 0 / 4, 0), (gn.GNINT_CFG 1 / 4, 0), (gn.GNINT_CFG 2 / 4, 0),
   (gn.GNINT_CFG 3 / 4, 0), (gn.GNINT_CFG 4 / 4, 0), (gn.GNINT_CFG 5 / 4, 0),
   (gn.GNINT_CFG 6 / 4, 0), (gn.GNINT_CFG 7 / 4, 0)]

/-- The stores of `configure` from the read of the MSI data register on, when the
selected vector slot is `k`. -/
def configureWritesAfter (gn : GennumRegMap) (k : Nat) : List (Nat × Nat) :=
  [(gn.GNINT_CFG k / 4, 0x800c),
   (gn.GNGPIO_BYPASS_MODE / 4, 0x0000),
   (gn.GNGPIO_DIRECTION_MODE / 4, 0xFFFF),
   (gn.GNGPIO_OUTPUT_ENABLE / 4, 0x0000),
   (gn.GNGPIO_INT_TYPE / 4, 0x0),
   (gn.GNGPIO_INT_VALUE / 4, 0x300),
   (gn.GNGPIO_INT_ON_ANY / 4, 0x0),
   (gn.GNGPIO_INT_MASK_SET / 4, 0xFFFF),
   (gn.GNGPIO_INT_MASK_CLR / 4, 0x0300),
   (gn.GNINT_STAT / 4, 0xFFF0),
   (gn.GNINT_STAT / 4, 0x0000)]

/-- The word offsets `configure` stores to. -/
def configureOffsets (gn : GennumRegMap) : List Nat :=
  [gn.GNPPCI_MSI_CONTROL / 4,
   gn.GNINT_CFG 0 / 4, gn.GNINT_CFG 1 / 4, gn.GNINT_CFG 2 / 4, gn.GNINT_CFG 3 / 4,
   gn.GNINT_CFG 4 / 4, gn.GNINT_CFG 5 / 4, gn.GNINT_CFG 6 / 4, gn.GNINT_CFG 7 / 4,
   gn.GNGPIO_BYPASS_MODE / 4, gn.GNGPIO_DIRECTION_MODE / 4, gn.GNGPIO_OUTPUT_ENABLE / 4,
   gn.GNGPIO_INT_TYPE / 4, gn.GNGPIO_INT_VALUE / 4, gn.GNGPIO_INT_ON_ANY / 4,
   gn.GNGPIO_INT_MASK_SET / 4, gn.GNGPIO_INT_MASK_CLR / 4, gn.GNINT_STAT / 4]

/-- A pinned buffer with a single scatter-gather entry of 4097 bytes. -/
def pageAndByteMemory : UserMemory :=
  { sg := [{ addr := 0x10000, size := 4097 }] }

/-- A scatter-gather entry of two pages (8192 bytes). -/
def twoPageEntry : SGEntry :=
  { addr := 0x10000, size := 8192 }

/-- A pinned buffer with two scatter-gather entries of 8 bytes each. -/
def twoSegmentMemory : UserMemory :=
  { sg := [{ addr := 0x10000, size := 8 }, { addr := 0x20000, size := 8 }] }

/-! ## Loop rules -/

theorem doWhile_unfold (p h : Nat) (w : Bool) (s : PrepState) :
    doWhile p h w s =
      if 0 < (chunkBody p h w s).sg_size then doWhile p h w (chunkBody p h w s)
      else chunkBody p h w s := by
  rw [doWhile]

theorem chunkBody_sg_size (p h : Nat) (w : Bool) (s : PrepState) :
    (chunkBody p h w s).sg_size = wrapInt32 (s.sg_size - 4096) := rfl

theorem wrapInt32_of_range (z : Int) (h0 : -2147483648 ≤ z) (h1 : z < 2147483648) :
    wrapInt32 z = z := by
  unfold wrapInt32
  omega

theorem wrapInt32_bounds (z : Int) : -2147483648 ≤ wrapInt32 z ∧ wrapInt32 z < 2147483648 := by
  unfold wrapInt32
  omega

theorem loopMeasure_chunkBody (p h : Nat) (w : Bool) (s : PrepState)
    (hc : 0 < (chunkBody p h w s).sg_size) :
    loopMeasure (chunkBody p h w s).sg_size < loopMeasure s.sg_size := by
  simp only [chunkBody_sg_size, wrapInt32, loopMeasure] at *
  split_ifs <;> omega

theorem chunkBody_j (p h : Nat) (w : Bool) (s : PrepState) :
    (chunkBody p h w s).j = s.j + 1 := rfl

/-- Rule for the `do ... while` loop: `P` holds before every pass through the body and
`Q` after the pass on which the loop is left. -/
theorem doWhile_rule (p h : Nat) (w : Bool) (P Q : PrepState → Prop)
    (hstep : ∀ s, P s → 0 < (chunkBody p h w s).sg_size → P (chunkBody p h w s))
    (hexit : ∀ s, P s → ¬ 0 < (chunkBody p h w s).sg_size → Q (chunkBody p h w s)) :
    ∀ s, P s → Q (doWhile p h w s) := by
  have key : ∀ n : Nat, ∀ s : PrepState, loopMeasure s.sg_size = n → P s →
      Q (doWhile p h w s) := by
    intro n
    induction n using Nat.strong_induction_on with
    | _ n ih =>
      intro s hn hP
      rw [doWhile_unfold]
      by_cases hc : 0 < (chunkBody p h w s).sg_size
      · rw [if_pos hc]
        refine ih _ ?_ _ rfl (hstep s hP hc)
        rw [← hn]
        exact loopMeasure_chunkBody p h w s hc
      · rw [if_neg hc]
        exact hexit s hP hc
  exact fun s hP => key _ s rfl hP

/-- Rule for the `for` loop over the scatter-gather entries. -/
theorem forLoop_rule (p : Nat) (w : Bool) (I : PrepState → Prop) (es : List SGEntry)
    (hstep : ∀ s e, e ∈ es → I s → I (sgStep p w s e)) :
    ∀ s, I s → I (forLoop p w s es) := by
  induction es with
  | nil => intro s hs; exact hs
  | cons e es ih =>
    intro s hs
    simp only [forLoop]
    exact ih (fun s e1 he1 => hstep s e1 (List.mem_cons_of_mem _ he1)) _
      (hstep s e (List.mem_cons_self _ _) hs)

/-! ## The chain structure -/

theorem chunkBody_chainInv (p h : Nat) (w : Bool) (s : PrepState)
    (hs : ChainInv p w s) : ChainInv p w (chunkBody p h w s) := by
  intro k hk
  simp only [chunkBody, setSlot, sizeofDesc] at hk ⊢
  by_cases hkj : k = s.j
  · subst hkj
    simp only [if_true]
    refine ⟨trivial, ?_, ?_⟩ <;> omega
  · simp only [if_neg hkj]
    have := hs k (by omega)
    simpa [sizeofDesc] using this

theorem sgStep_chainInv (p : Nat) (w : Bool) (s : PrepState) (e : SGEntry)
    (hs : ChainInv p w s) : ChainInv p w (sgStep p w s e) := by
  unfold sgStep
  exact doWhile_rule p _ w (ChainInv p w) (ChainInv p w)
    (fun t ht _ => chunkBody_chainInv p _ w t ht)
    (fun t ht _ => chunkBody_chainInv p _ w t ht) _ hs

theorem forLoop_chainInv (p : Nat) (w : Bool) (es : List SGEntry) (s : PrepState)
    (hs : ChainInv p w s) : ChainInv p w (forLoop p w s es) :=
  forLoop_rule p w (ChainInv p w) es (fun t e _ ht => sgStep_chainInv p w t e ht) s hs

theorem doWhile_j_lt (p h : Nat) (w : Bool) (s : PrepState) :
    s.j < (doWhile p h w s).j :=
  doWhile_rule p h w (fun t => s.j ≤ t.j) (fun t => s.j < t.j)
    (fun t ht _ => by simp only [chunkBody_j] at ht ⊢; omega)
    (fun t ht _ => by simp only [chunkBody_j] at ht ⊢; omega) s (le_refl _)

theorem sgStep_j_lt (p : Nat) (w : Bool) (s : PrepState) (e : SGEntry) :
    s.j < (sgStep p w s e).j := by
  have h := doWhile_j_lt p ((e.addr / 4294967296) % 4294967296) w
    { s with sg_size := toInt32 e.size, sg_addr_l := e.addr % 4294967296 }
  exact h

theorem forLoop_j_ge (p : Nat) (w : Bool) (es : List SGEntry) (s : PrepState) :
    s.j + es.length ≤ (forLoop p w s es).j := by
  induction es generalizing s with
  | nil => simp [forLoop]
  | cons e es ih =>
    simp only [forLoop, List.length_cons]
    have h1 := sgStep_j_lt p w s e
    have h2 := ih (sgStep p w s e)
    omega

theorem markLast_llist_last (w : Bool) (s : PrepState) :
    (markLast w s).llist (lastIndex s.j) =
      { carrier_start := (s.llist (lastIndex s.j)).carrier_start
        host_start_l := (s.llist (lastIndex s.j)).host_start_l
        host_start_h := (s.llist (lastIndex s.j)).host_start_h
        length := (s.llist (lastIndex s.j)).length
        host_next_l := 0
        host_next_h := 0
        attr := 0 + writeBit w } := by
  simp [markLast, setSlot]

theorem markLast_llist_other (w : Bool) (s : PrepState) (k : Nat)
    (hk : k ≠ lastIndex s.j) : (markLast w s).llist k = s.llist k := by
  simp [markLast, setSlot, hk]

theorem lastIndex_pos (j : Nat) (hj : 0 < j) : lastIndex j = j - 1 := by
  unfold lastIndex
  rw [if_neg (by omega)]

theorem writeBit_cases (w : Bool) : writeBit w = 0 ∨ writeBit w = 2 := by
  cases w <;> simp [writeBit]

theorem prepDmaList_j (um : UserMemory) (km : KernelMemory) (off : Nat) (w : Bool) :
    (prepDmaList um km off w).j =
      (forLoop km.physicalAddress w
        { llist := km.buffer, dev_off := (off * 4) % 4294967296, j := 0, sg_size := 0,
          sg_addr_l := 0 } um.sg).j := rfl

theorem prepDmaList_j_ge (um : UserMemory) (km : KernelMemory) (off : Nat) (w : Bool) :
    um.sg.length ≤ (prepDmaList um km off w).j := by
  rw [prepDmaList_j]
  have h := forLoop_j_ge km.physicalAddress w um.sg
    { llist := km.buffer, dev_off := (off * 4) % 4294967296, j := 0, sg_size := 0,
      sg_addr_l := 0 }
  simpa using h

theorem prepDmaList_chainInv (um : UserMemory) (km : KernelMemory) (off : Nat) (w : Bool) :
    ChainInv km.physicalAddress w
      (forLoop km.physicalAddress w
        { llist := km.buffer, dev_off := (off * 4) % 4294967296, j := 0, sg_size := 0,
          sg_addr_l := 0 } um.sg) :=
  forLoop_chainInv _ _ _ _ (fun k hk => absurd hk (Nat.not_lt_zero k))

/-- C1: for a non-empty scatter-gather list the chain written by `prepDmaList` has at least
one descriptor; the final one written (slot `j - 1`) has attr bit 0 clear and both halves of
its next-pointer zero; every other descriptor `i` has attr bit 0 set and a next-pointer whose
low and high 32-bit halves are those of the descriptor buffer's physical address plus
`(i + 1)` times the descriptor size; hence the final descriptor is the only one of the chain
with attr bit 0 clear. -/
theorem prepDmaList_exactly_one_last (um : UserMemory) (km : KernelMemory) (off : Nat)
    (write : Bool) (hne : um.sg ≠ []) :
    0 < (prepDmaList um km off write).j ∧
    ((prepDmaList um km off write).llist ((prepDmaList um km off write).j - 1)).attr % 2 = 0 ∧
    ((prepDmaList um km off write).llist
      ((prepDmaList um km off write).j - 1)).host_next_l = 0 ∧
    ((prepDmaList um km off write).llist
      ((prepDmaList um km off write).j - 1)).host_next_h = 0 ∧
    (∀ i, i + 1 < (prepDmaList um km off write).j →
      ((prepDmaList um km off write).llist i).attr % 2 = 1 ∧
      ((prepDmaList um km off write).llist i).host_next_l =
        (km.physicalAddress + sizeofDesc * (i + 1)) % 4294967296 ∧
      ((prepDmaList um km off write).llist i).host_next_h =
        (km.physicalAddress + sizeofDesc * (i + 1)) / 4294967296 % 4294967296) ∧
    (∀ i, i < (prepDmaList um km off write).j →
      (((prepDmaList um km off write).llist i).attr % 2 = 0 ↔
        i = (prepDmaList um km off write).j - 1)) := by
  have hlen : 0 < um.sg.length := List.length_pos.mpr hne
  have hj := prepDmaList_j_ge um km off write
  have hinv := prepDmaList_chainInv um km off write
  have hpos : 0 < (prepDmaList um km off write).j := by omega
  have hwb := writeBit_cases write
  rw [prepDmaList_j] at hpos
  have hlast := markLast_llist_last write
    (forLoop km.physicalAddress write
      { llist := km.buffer, dev_off := (off * 4) % 4294967296, j := 0, sg_size := 0,
        sg_addr_l := 0 } um.sg)
  rw [lastIndex_pos _ hpos] at hlast
  have hother : ∀ i, i + 1 < (prepDmaList um km off write).j →
      ((prepDmaList um km off write).llist i).attr = 1 + writeBit write ∧
      ((prepDmaList um km off write).llist i).host_next_l =
        (km.physicalAddress + sizeofDesc * (i + 1)) % 4294967296 ∧
      ((prepDmaList um km off write).llist i).host_next_h =
        (km.physicalAddress + sizeofDesc * (i + 1)) / 4294967296 % 4294967296 := by
    intro i hi
    rw [prepDmaList_j] at hi
    have hne1 : i ≠ lastIndex (forLoop km.physicalAddress write
      { llist := km.buffer, dev_off := (off * 4) % 4294967296, j := 0, sg_size := 0,
        sg_addr_l := 0 } um.sg).j := by
      rw [lastIndex_pos _ hpos]; omega
    have h1 := markLast_llist_other write _ i hne1
    have h2 := hinv i (by omega)
    unfold prepDmaList
    rw [h1]
    exact h2
  have hlastattr : ((prepDmaList um km off write).llist
      ((prepDmaList um km off write).j - 1)).attr = 0 + writeBit write := by
    rw [prepDmaList_j]
    unfold prepDmaList
    rw [hlast]
  refine ⟨by rw [prepDmaList_j]; exact hpos, ?_, ?_, ?_, ?_, ?_⟩
  · rw [hlastattr]; omega
  · rw [prepDmaList_j]; unfold prepDmaList; rw [hlast]
  · rw [prepDmaList_j]; unfold prepDmaList; rw [hlast]
  · intro i hi
    obtain ⟨h1, h2, h3⟩ := hother i hi
    refine ⟨?_, h2, h3⟩
    rw [h1]; omega
  · intro i hi
    constructor
    · intro h0
      by_contra hcon
      have h1 := (hother i (by omega)).1
      rw [h1] at h0
      omega
    · intro hi1
      rw [hi1, hlastattr]
      omega

theorem prepDmaList_attr (um : UserMemory) (km : KernelMemory) (off : Nat) (w : Bool)
    (i : Nat) (hi : i < (prepDmaList um km off w).j) :
    ((prepDmaList um km off w).llist i).attr = 1 + writeBit w ∨
    ((prepDmaList um km off w).llist i).attr = 0 + writeBit w := by
  rw [prepDmaList_j] at hi
  have hinv := prepDmaList_chainInv um km off w
  by_cases hlast : i = lastIndex (forLoop km.physicalAddress w
      { llist := km.buffer, dev_off := (off * 4) % 4294967296, j := 0, sg_size := 0,
        sg_addr_l := 0 } um.sg).j
  · right
    unfold prepDmaList
    rw [hlast, markLast_llist_last]
  · left
    unfold prepDmaList
    rw [markLast_llist_other _ _ _ hlast]
    exact (hinv i hi).1

/-- C8: every descriptor of the chain written by `prepDmaList`, the patched final one
included, has attr bit 1 equal to the `write` flag and no attr bit above bit 1; `writeDma`
builds its chain with the flag set (host to device) and `readDma` with the flag clear
(device to host). -/
theorem prepDmaList_direction_bit (um : UserMemory) (km : KernelMemory) (spec : SpecDevice)
    (off words : Nat) (write : Bool) :
    (∀ i, i < (prepDmaList um km off write).j →
      ((prepDmaList um km off write).llist i).attr / 2 % 2 = (if write then 1 else 0) ∧
      ((prepDmaList um km off write).llist i).attr < 4) ∧
    (∀ i, i < (writeDmaList spec off words).j →
      ((writeDmaList spec off words).llist i).attr / 2 % 2 = 1 ∧
      ((writeDmaList spec off words).llist i).attr < 4) ∧
    (∀ i, i < (readDmaList spec off words).j →
      ((readDmaList spec off words).llist i).attr / 2 % 2 = 0 ∧
      ((readDmaList spec off words).llist i).attr < 4) := by
  refine ⟨?_, ?_, ?_⟩
  · intro i hi
    have h := prepDmaList_attr um km off write i hi
    cases write <;> simp only [writeBit] at h <;> rcases h with h | h <;> rw [h] <;> simp
  · intro i hi
    have h := prepDmaList_attr _ _ _ _ i hi
    unfold writeDmaList
    simp only [writeBit] at h
    rcases h with h | h <;> rw [h] <;> simp
  · intro i hi
    have h := prepDmaList_attr _ _ _ _ i hi
    unfold readDmaList
    simp only [writeBit] at h
    rcases h with h | h <;> rw [h] <;> simp

/-! ## Transfer orchestration -/

/-- C5: when the DMA status register holds a value other than IDLE, DONE and ABORTED (such
as RUNNING), `writeDma` and `readDma` leave the hardware (both register regions and the
caller's buffer) unchanged and issue nothing but the read of the status register and the
diagnostic: no store to a DMA register, no descriptor chain, no interrupt wait. -/
theorem dma_rejected_when_busy (rm : DmaRegMap) (gn : GennumRegMap) (spec : SpecDevice)
    (off words : Nat) (s : SpecState)
    (hidle : toInt32 (s.hw.bar0 rm.DMASTATR) ≠ rm.DMAIDLE)
    (hdone : toInt32 (s.hw.bar0 rm.DMASTATR) ≠ rm.DMADONE)
    (habort : toInt32 (s.hw.bar0 rm.DMASTATR) ≠ rm.DMAABORTED) :
    (writeDma rm gn spec off words s).hw = s.hw ∧
    (writeDma rm gn spec off words s).trace =
      s.trace ++ [Action.read32 Bar.bar0 rm.DMASTATR,
        Action.cerrAborted (toInt32 (s.hw.bar0 rm.DMASTATR))] ∧
    (readDma rm gn spec off words s).hw = s.hw ∧
    (readDma rm gn spec off words s).trace =
      s.trace ++ [Action.read32 Bar.bar0 rm.DMASTATR,
        Action.cerrAborted (toInt32 (s.hw.bar0 rm.DMASTATR))] := by
  have hst : statusAllowed rm (toInt32 (s.hw.bar0 rm.DMASTATR)) = false := by
    simp [statusAllowed, hidle, hdone, habort]
  refine ⟨?_, ?_, ?_, ?_⟩ <;>
    simp [writeDma, readDma, hst, getDmaStatus, read32, SpecState.log, Hardware.load]

/-- C6: when the DMA status register holds IDLE, DONE or ABORTED, the accesses and driver
calls of `writeDma` are, in order: the status read, pinning the buffer, allocating the
descriptor buffer, synchronising it, copying the first descriptor of the chain to the
registers at `DMACSTARTR`, one store of 1 to `DMACTRLR`, the interrupt wait, one read of
the GPIO interrupt status register, and the two releases; `readDma` issues the same with a
synchronisation of the user buffer before the releases. -/
theorem dma_permitted_sequence (rm : DmaRegMap) (gn : GennumRegMap) (spec : SpecDevice)
    (off words : Nat) (s : SpecState)
    (hst : toInt32 (s.hw.bar0 rm.DMASTATR) = rm.DMAIDLE ∨
      toInt32 (s.hw.bar0 rm.DMASTATR) = rm.DMADONE ∨
      toInt32 (s.hw.bar0 rm.DMASTATR) = rm.DMAABORTED) :
    (writeDma rm gn spec off words s).trace =
      s.trace ++
        [Action.read32 Bar.bar0 rm.DMASTATR,
         Action.mapUserMemory (words * 4),
         Action.allocKernelMemory (sizeofDesc * (spec.mapUserMemory (words * 4)).getSGcount),
         Action.syncKernelMemory,
         Action.memcpy Bar.bar0 rm.DMACSTARTR (descWords ((writeDmaList spec off words).llist 0)),
         Action.write32 Bar.bar0 rm.DMACTRLR 1,
         Action.waitForInterrupt 0,
         Action.read32 Bar.bar4 (gn.GNGPIO_INT_STATUS / 4),
         Action.deleteKernelMemory,
         Action.deleteUserMemory] ∧
    (readDma rm gn spec off words s).trace =
      s.trace ++
        [Action.read32 Bar.bar0 rm.DMASTATR,
         Action.mapUserMemory (words * 4),
         Action.allocKernelMemory (sizeofDesc * (spec.mapUserMemory (words * 4)).getSGcount),
         Action.syncKernelMemory,
         Action.memcpy Bar.bar0 rm.DMACSTARTR (descWords ((readDmaList spec off words).llist 0)),
         Action.write32 Bar.bar0 rm.DMACTRLR 1,
         Action.waitForInterrupt 0,
         Action.read32 Bar.bar4 (gn.GNGPIO_INT_STATUS / 4),
         Action.syncUserMemory,
         Action.deleteKernelMemory,
         Action.deleteUserMemory] := by
  have hal : statusAllowed rm (toInt32 (s.hw.bar0 rm.DMASTATR)) = true := by
    simp only [statusAllowed, Bool.or_eq_true, beq_iff_eq]
    tauto
  constructor <;>
    simp [writeDma, readDma, hal, getDmaStatus, read32, SpecState.log, Hardware.load,
      memcpyFirst, startDma, write32, waitForInterrupt]

/-! ## Device offsets -/

theorem chunkBody_llist_same (p h : Nat) (w : Bool) (s : PrepState) :
    (chunkBody p h w s).llist s.j =
      { carrier_start := s.dev_off
        host_start_l := s.sg_addr_l
        host_start_h := h
        length := if s.sg_size > 4096 then 4096 else toUInt32 s.sg_size
        host_next_l := (p + sizeofDesc * (s.j + 1)) % 18446744073709551616 % 4294967296
        host_next_h := (p + sizeofDesc * (s.j + 1)) % 18446744073709551616 / 4294967296
        attr := 1 + writeBit w } := by
  simp [chunkBody, setSlot]

theorem chunkBody_llist_other (p h : Nat) (w : Bool) (s : PrepState) (k : Nat)
    (hk : k ≠ s.j) : (chunkBody p h w s).llist k = s.llist k := by
  simp [chunkBody, setSlot, hk]

theorem chunkBody_dev_off (p h : Nat) (w : Bool) (s : PrepState) :
    (chunkBody p h w s).dev_off =
      (s.dev_off + (if s.sg_size > 4096 then 4096 else toUInt32 s.sg_size)) % 4294967296 :=
  rfl

theorem chunkBody_carrierInv (off4 p h : Nat) (w : Bool) (s : PrepState)
    (hs : CarrierInv off4 s) : CarrierInv off4 (chunkBody p h w s) := by
  obtain ⟨_, h2, h3, h4⟩ := hs
  refine ⟨?_, ?_, ?_, ?_⟩
  · rw [chunkBody_dev_off]; omega
  · intro hj
    rw [chunkBody_j] at hj
    omega
  · intro _
    constructor
    · by_cases hj : s.j = 0
      · have e : (chunkBody p h w s).llist 0 = (chunkBody p h w s).llist s.j := by rw [hj]
        rw [e, chunkBody_llist_same]
        exact h2 hj
      · rw [chunkBody_llist_other p h w s 0 (by omega)]
        exact (h3 (by omega)).1
    · rw [chunkBody_j, Nat.add_sub_cancel, chunkBody_llist_same, chunkBody_dev_off]
  · intro i hi
    rw [chunkBody_j] at hi
    by_cases hij : i + 1 = s.j
    · rw [hij, chunkBody_llist_same, chunkBody_llist_other p h w s i (by omega)]
      have h5 := (h3 (by omega)).2
      have e : s.j - 1 = i := by omega
      rw [e] at h5
      exact h5
    · rw [chunkBody_llist_other p h w s (i + 1) (by omega),
        chunkBody_llist_other p h w s i (by omega)]
      exact h4 i (by omega)

theorem sgStep_carrierInv (off4 p : Nat) (w : Bool) (s : PrepState) (e : SGEntry)
    (hs : CarrierInv off4 s) : CarrierInv off4 (sgStep p w s e) := by
  unfold sgStep
  exact doWhile_rule p _ w (CarrierInv off4) (CarrierInv off4)
    (fun t ht _ => chunkBody_carrierInv off4 p _ w t ht)
    (fun t ht _ => chunkBody_carrierInv off4 p _ w t ht) _ hs

theorem forLoop_carrierInv (off4 p : Nat) (w : Bool) (es : List SGEntry) (s : PrepState)
    (hs : CarrierInv off4 s) : CarrierInv off4 (forLoop p w s es) :=
  forLoop_rule p w (CarrierInv off4) es (fun t e _ ht => sgStep_carrierInv off4 p w t e ht)
    s hs

theorem markLast_carrier_start (w : Bool) (s : PrepState) (k : Nat) :
    ((markLast w s).llist k).carrier_start = (s.llist k).carrier_start := by
  by_cases hk : k = lastIndex s.j
  · rw [hk, markLast_llist_last]
  · rw [markLast_llist_other w s k hk]

theorem markLast_length (w : Bool) (s : PrepState) (k : Nat) :
    ((markLast w s).llist k).length = (s.llist k).length := by
  by_cases hk : k = lastIndex s.j
  · rw [hk, markLast_llist_last]
  · rw [markLast_llist_other w s k hk]

theorem prepDmaList_carrierInv (um : UserMemory) (km : KernelMemory) (off : Nat) (w : Bool) :
    CarrierInv ((off * 4) % 4294967296)
      (forLoop km.physicalAddress w
        { llist := km.buffer, dev_off := (off * 4) % 4294967296, j := 0, sg_size := 0,
          sg_addr_l := 0 } um.sg) := by
  apply forLoop_carrierInv
  refine ⟨?_, ?_, ?_, ?_⟩
  · show (off * 4) % 4294967296 < 4294967296
    omega
  · intro _; rfl
  · intro h0
    exact absurd h0 (Nat.lt_irrefl 0)
  · intro i hi
    exact absurd hi (Nat.not_lt_zero _)

theorem toUInt32_of_nonneg (z : Int) (h0 : 0 ≤ z) (h1 : z < 4294967296) :
    (toUInt32 z : Int) = z := by
  unfold toUInt32
  omega

theorem toUInt32_toInt32 (n : Nat) (h : n < 4294967296) : toUInt32 (toInt32 n) = n := by
  unfold toUInt32 toInt32
  split <;> omega

theorem toInt32_bounds (n : Nat) : -2147483648 ≤ toInt32 n ∧ toInt32 n < 2147483648 := by
  unfold toInt32
  split <;> omega

theorem toInt32_of_lt (n : Nat) (h : n < 2147483648) : toInt32 n = (n : Int) := by
  unfold toInt32
  split <;> omega

theorem chunkBody_below (p h : Nat) (w : Bool) (s : PrepState) (hM : BelowInv s)
    (hd : s.dev_off + (if s.sg_size > 4096 then 4096 else toUInt32 s.sg_size) < 4294967296) :
    BelowInv (chunkBody p h w s) := by
  intro i hi
  rw [chunkBody_j] at hi
  rw [chunkBody_dev_off, Nat.mod_eq_of_lt hd]
  by_cases hij : i = s.j
  · rw [hij, chunkBody_llist_same]
  · rw [chunkBody_llist_other p h w s i hij]
    have := hM i (by omega)
    omega

theorem sgStep_below (p : Nat) (w : Bool) (s : PrepState) (e : SGEntry) (hM : BelowInv s)
    (hL : e.size < 2147483648) (hd : s.dev_off + e.size < 4294967296) :
    BelowInv (sgStep p w s e) ∧ (sgStep p w s e).dev_off = s.dev_off + e.size := by
  unfold sgStep
  refine doWhile_rule p _ w
    (fun t => BelowInv t ∧ 0 ≤ t.sg_size ∧ t.sg_size < 2147483648 ∧
      t.dev_off + toUInt32 t.sg_size = s.dev_off + e.size)
    (fun t => BelowInv t ∧ t.dev_off = s.dev_off + e.size) ?_ ?_ _ ?_
  · intro t ht hc
    obtain ⟨h1, h2, h3, h4⟩ := ht
    have hw : wrapInt32 (t.sg_size - 4096) = t.sg_size - 4096 :=
      wrapInt32_of_range _ (by omega) (by omega)
    rw [chunkBody_sg_size, hw] at hc
    have hz : t.sg_size > 4096 := by omega
    have hu : (toUInt32 t.sg_size : Int) = t.sg_size := toUInt32_of_nonneg _ (by omega) (by omega)
    have hu2 : (toUInt32 (t.sg_size - 4096) : Int) = t.sg_size - 4096 :=
      toUInt32_of_nonneg _ (by omega) (by omega)
    refine ⟨chunkBody_below p _ w t h1 ?_, ?_, ?_, ?_⟩
    · rw [if_pos hz]; omega
    · rw [chunkBody_sg_size, hw]; omega
    · rw [chunkBody_sg_size, hw]; omega
    · rw [chunkBody_sg_size, hw, chunkBody_dev_off, if_pos hz]
      omega
  · intro t ht hc
    obtain ⟨h1, h2, h3, h4⟩ := ht
    have hw : wrapInt32 (t.sg_size - 4096) = t.sg_size - 4096 :=
      wrapInt32_of_range _ (by omega) (by omega)
    rw [chunkBody_sg_size, hw] at hc
    have hz : ¬ t.sg_size > 4096 := by omega
    refine ⟨chunkBody_below p _ w t h1 ?_, ?_⟩
    · rw [if_neg hz]; omega
    · rw [chunkBody_dev_off, if_neg hz]
      omega
  · have hb := toInt32_of_lt e.size hL
    have hr := toUInt32_toInt32 e.size (by omega)
    refine ⟨hM, ?_, ?_, ?_⟩
    · show 0 ≤ toInt32 e.size
      omega
    · show toInt32 e.size < 2147483648
      omega
    · show s.dev_off + toUInt32 (toInt32 e.size) = _
      rw [hr]

theorem forLoop_below (p : Nat) (w : Bool) (es : List SGEntry) (s : PrepState)
    (hM : BelowInv s) (hL : ∀ e ∈ es, e.size < 2147483648)
    (hd : s.dev_off + (es.map SGEntry.size).sum < 4294967296) :
    BelowInv (forLoop p w s es) := by
  induction es generalizing s with
  | nil => exact hM
  | cons e es ih =>
    simp only [List.map_cons, List.sum_cons] at hd
    have h1 := sgStep_below p w s e hM (hL e (List.mem_cons_self _ _)) (by omega)
    simp only [forLoop]
    exact ih _ h1.1 (fun x hx => hL x (List.mem_cons_of_mem _ hx)) (by rw [h1.2]; omega)

/-! ## Evaluation of the inner loop -/

theorem doWhile_exit (p h : Nat) (w : Bool) (s : PrepState)
    (hlo : -2147479552 ≤ s.sg_size) (hc : s.sg_size ≤ 4096) :
    doWhile p h w s = chunkBody p h w s := by
  rw [doWhile_unfold, if_neg]
  rw [chunkBody_sg_size, wrapInt32_of_range _ (by omega) (by omega)]; omega

theorem doWhile_continue (p h : Nat) (w : Bool) (s : PrepState) (hc : 4096 < s.sg_size)
    (hhi : s.sg_size < 2147487744) :
    doWhile p h w s = doWhile p h w (chunkBody p h w s) := by
  rw [doWhile_unfold, if_pos]
  rw [chunkBody_sg_size, wrapInt32_of_range _ (by omega) (by omega)]; omega

theorem sgStep_one_chunk (p : Nat) (w : Bool) (s : PrepState) (e : SGEntry)
    (h0 : -2147479552 ≤ toInt32 e.size) (h : toInt32 e.size ≤ 4096) :
    sgStep p w s e =
      chunkBody p ((e.addr / 4294967296) % 4294967296) w
        { s with sg_size := toInt32 e.size, sg_addr_l := e.addr % 4294967296 } := by
  unfold sgStep
  exact doWhile_exit _ _ _ _ h0 h

theorem sgStep_two_chunks (p : Nat) (w : Bool) (s : PrepState) (e : SGEntry)
    (h1 : 4096 < toInt32 e.size) (h2 : toInt32 e.size ≤ 8192) :
    sgStep p w s e =
      chunkBody p ((e.addr / 4294967296) % 4294967296) w
        (chunkBody p ((e.addr / 4294967296) % 4294967296) w
          { s with sg_size := toInt32 e.size, sg_addr_l := e.addr % 4294967296 }) := by
  unfold sgStep
  have hw : wrapInt32 (toInt32 e.size - 4096) = toInt32 e.size - 4096 :=
    wrapInt32_of_range _ (by omega) (by omega)
  rw [doWhile_continue _ _ _ _ h1 (by show toInt32 e.size < 2147487744; omega), doWhile_exit]
  · rw [chunkBody_sg_size]
    show -2147479552 ≤ wrapInt32 (toInt32 e.size - 4096)
    rw [hw]; omega
  · rw [chunkBody_sg_size]
    show wrapInt32 (toInt32 e.size - 4096) ≤ 4096
    rw [hw]; omega

/-! ## Descriptors per entry -/

theorem sgStep_count (p : Nat) (w : Bool) (s : PrepState) (e : SGEntry)
    (hL : e.size < 2147483648) :
    (e.size ≤ 4096 →
      (sgStep p w s e).j = s.j + 1 ∧ ((sgStep p w s e).llist s.j).length = e.size) ∧
    (4096 < e.size →
      (sgStep p w s e).j = s.j + (e.size + 4095) / 4096 ∧
      ((sgStep p w s e).llist ((sgStep p w s e).j - 1)).length =
        if e.size % 4096 = 0 then 4096 else e.size % 4096) := by
  unfold sgStep
  refine doWhile_rule p _ w
    (fun t => s.j ≤ t.j ∧ 0 ≤ t.sg_size ∧ (s.j < t.j → 0 < t.sg_size) ∧
      t.sg_size + 4096 * ((t.j - s.j : Nat) : Int) = (e.size : Int))
    (fun t => (e.size ≤ 4096 → t.j = s.j + 1 ∧ (t.llist s.j).length = e.size) ∧
      (4096 < e.size → t.j = s.j + (e.size + 4095) / 4096 ∧
        (t.llist (t.j - 1)).length = if e.size % 4096 = 0 then 4096 else e.size % 4096))
    ?_ ?_ _ ?_
  · intro t ht hc
    obtain ⟨h1, h2, h3, h4⟩ := ht
    have hw : wrapInt32 (t.sg_size - 4096) = t.sg_size - 4096 :=
      wrapInt32_of_range _ (by omega) (by omega)
    rw [chunkBody_sg_size, hw] at hc
    refine ⟨?_, ?_, ?_, ?_⟩
    · rw [chunkBody_j]; omega
    · rw [chunkBody_sg_size, hw]; omega
    · intro _; rw [chunkBody_sg_size, hw]; omega
    · rw [chunkBody_sg_size, hw, chunkBody_j]; omega
  · intro t ht hc
    obtain ⟨h1, h2, h3, h4⟩ := ht
    have hw : wrapInt32 (t.sg_size - 4096) = t.sg_size - 4096 :=
      wrapInt32_of_range _ (by omega) (by omega)
    rw [chunkBody_sg_size, hw] at hc
    have hz : ¬ t.sg_size > 4096 := by omega
    have hu : (toUInt32 t.sg_size : Int) = t.sg_size := toUInt32_of_nonneg _ h2 (by omega)
    constructor
    · intro hle
      have hj : t.j = s.j := by
        by_contra hne
        have := h3 (by omega)
        omega
      refine ⟨by rw [chunkBody_j]; omega, ?_⟩
      rw [← hj, chunkBody_llist_same, if_neg hz]
      show toUInt32 t.sg_size = e.size
      rw [hj] at h4
      omega
    · intro hgt
      have hlt : s.j < t.j := by
        by_contra hne
        have : t.j - s.j = 0 := by omega
        rw [this] at h4
        omega
      have := h3 hlt
      refine ⟨by rw [chunkBody_j]; omega, ?_⟩
      rw [chunkBody_j, Nat.add_sub_cancel, chunkBody_llist_same, if_neg hz]
      show toUInt32 t.sg_size = _
      split <;> omega
  · have hr := toInt32_of_lt e.size hL
    refine ⟨le_refl _, ?_, ?_, ?_⟩
    · show 0 ≤ toInt32 e.size
      omega
    · intro h; exact absurd h (Nat.lt_irrefl _)
    · show toInt32 e.size + 4096 * ((s.j - s.j : Nat) : Int) = _
      rw [Nat.sub_self]
      omega

/-- C2 (amended): for a scatter-gather entry of length `L < 2^31`, one pass of the `for`
loop of `prepDmaList` writes exactly one descriptor (of length `L`) when `L ≤ 4096`, and
exactly `ceil(L/4096)` descriptors when `L > 4096`, the final one of length `L mod 4096`,
or 4096 when `L` is a multiple of 4096. A single 4097-byte entry at offset 0 gives two
descriptors: length 4096, "not last", device offset 0, then length 1, "last", device
offset 4096. -/
theorem prepDmaList_descriptors_per_entry (p : Nat) (w : Bool) (s : PrepState) (e : SGEntry)
    (a : Nat) (km : KernelMemory) (hL : e.size < 2147483648) :
    (e.size ≤ 4096 →
      (sgStep p w s e).j = s.j + 1 ∧ ((sgStep p w s e).llist s.j).length = e.size) ∧
    (4096 < e.size →
      (sgStep p w s e).j = s.j + (e.size + 4095) / 4096 ∧
      ((sgStep p w s e).llist ((sgStep p w s e).j - 1)).length =
        if e.size % 4096 = 0 then 4096 else e.size % 4096) ∧
    (prepDmaList { sg := [{ addr := a, size := 4097 }] } km 0 true).j = 2 ∧
    ((prepDmaList { sg := [{ addr := a, size := 4097 }] } km 0 true).llist 0).length = 4096 ∧
    ((prepDmaList { sg := [{ addr := a, size := 4097 }] } km 0 true).llist 0).attr % 2 = 1 ∧
    ((prepDmaList { sg := [{ addr := a, size := 4097 }] } km 0 true).llist 0).carrier_start
      = 0 ∧
    ((prepDmaList { sg := [{ addr := a, size := 4097 }] } km 0 true).llist 1).length = 1 ∧
    ((prepDmaList { sg := [{ addr := a, size := 4097 }] } km 0 true).llist 1).attr % 2 = 0 ∧
    ((prepDmaList { sg := [{ addr := a, size := 4097 }] } km 0 true).llist 1).carrier_start
      = 4096 := by
  refine ⟨(sgStep_count p w s e hL).1, (sgStep_count p w s e hL).2, ?_⟩
  have e1 : prepDmaList { sg := [{ addr := a, size := 4097 }] } km 0 true =
      markLast true
        (chunkBody km.physicalAddress ((a / 4294967296) % 4294967296) true
          (chunkBody km.physicalAddress ((a / 4294967296) % 4294967296) true
            { llist := km.buffer, dev_off := (0 * 4) % 4294967296, j := 0,
              sg_size := toInt32 4097, sg_addr_l := a % 4294967296 })) := by
    unfold prepDmaList
    simp only [forLoop]
    rw [sgStep_two_chunks _ _ _ _ (by show (4096 : Int) < toInt32 4097; decide)
      (by show toInt32 4097 ≤ 8192; decide)]
  rw [e1]
  simp [markLast, chunkBody, setSlot, lastIndex, toUInt32, toInt32, wrapInt32, writeBit]

/-- C2, counterexample to the claim as stated: an entry of `2^31 + 4096` bytes yields a single descriptor (of that length), not
`ceil(L/4096) = 524289` descriptors: the length is held in an `int`. -/
theorem prepDmaList_huge_entry_one_descriptor :
    (prepDmaList { sg := [{ addr := 0x10000, size := 2147487744 }] } zeroKernelMemory 0
      true).j = 1 ∧
    ((prepDmaList { sg := [{ addr := 0x10000, size := 2147487744 }] } zeroKernelMemory 0
      true).llist 0).length = 2147487744 ∧
    ¬ ((prepDmaList { sg := [{ addr := 0x10000, size := 2147487744 }] } zeroKernelMemory 0
      true).j = (2147487744 + 4095) / 4096) := by
  have e1 : prepDmaList { sg := [{ addr := 0x10000, size := 2147487744 }] } zeroKernelMemory
      0 true =
      markLast true
        (chunkBody zeroKernelMemory.physicalAddress ((0x10000 / 4294967296) % 4294967296)
          true
          { llist := zeroKernelMemory.buffer, dev_off := (0 * 4) % 4294967296, j := 0,
            sg_size := toInt32 2147487744, sg_addr_l := 0x10000 % 4294967296 }) := by
    unfold prepDmaList
    simp only [forLoop]
    rw [sgStep_one_chunk _ _ _ _ (by decide) (by decide)]
  rw [e1]
  simp [markLast, chunkBody, setSlot, lastIndex, toUInt32, toInt32, wrapInt32, writeBit]

/-- C3 (amended): the `carrier_start` values written by `prepDmaList`, in emission order,
start at `off * 4` modulo `2^32`, and each equals the previous descriptor's `carrier_start`
plus its length modulo `2^32`; when every entry is shorter than `2^31` bytes and `off * 4`
plus the byte lengths of all entries stays below `2^32` they start at `off * 4`, each
equals the previous one plus the previous length, and they are non-decreasing. -/
theorem prepDmaList_carrier_start (um : UserMemory) (km : KernelMemory) (off : Nat)
    (write : Bool) :
    (0 < (prepDmaList um km off write).j →
      ((prepDmaList um km off write).llist 0).carrier_start = (off * 4) % 4294967296) ∧
    (∀ i, i + 1 < (prepDmaList um km off write).j →
      ((prepDmaList um km off write).llist (i + 1)).carrier_start =
        (((prepDmaList um km off write).llist i).carrier_start +
          ((prepDmaList um km off write).llist i).length) % 4294967296) ∧
    ((∀ e ∈ um.sg, e.size < 2147483648) →
      off * 4 + (um.sg.map SGEntry.size).sum < 4294967296 →
      (0 < (prepDmaList um km off write).j →
        ((prepDmaList um km off write).llist 0).carrier_start = off * 4) ∧
      (∀ i, i + 1 < (prepDmaList um km off write).j →
        ((prepDmaList um km off write).llist (i + 1)).carrier_start =
          ((prepDmaList um km off write).llist i).carrier_start +
            ((prepDmaList um km off write).llist i).length ∧
        ((prepDmaList um km off write).llist i).carrier_start ≤
          ((prepDmaList um km off write).llist (i + 1)).carrier_start)) := by
  have hinv := prepDmaList_carrierInv um km off write
  obtain ⟨h1, _, h3, h4⟩ := hinv
  have hA : 0 < (prepDmaList um km off write).j →
      ((prepDmaList um km off write).llist 0).carrier_start = (off * 4) % 4294967296 := by
    intro hj
    rw [prepDmaList_j] at hj
    unfold prepDmaList
    rw [markLast_carrier_start]
    exact (h3 hj).1
  have hB : ∀ i, i + 1 < (prepDmaList um km off write).j →
      ((prepDmaList um km off write).llist (i + 1)).carrier_start =
        (((prepDmaList um km off write).llist i).carrier_start +
          ((prepDmaList um km off write).llist i).length) % 4294967296 := by
    intro i hi
    rw [prepDmaList_j] at hi
    unfold prepDmaList
    rw [markLast_carrier_start, markLast_carrier_start, markLast_length]
    exact h4 i hi
  refine ⟨hA, hB, ?_⟩
  intro hsize hsum
  have hbelow := forLoop_below km.physicalAddress write um.sg
    { llist := km.buffer, dev_off := (off * 4) % 4294967296, j := 0, sg_size := 0,
      sg_addr_l := 0 }
    (fun i hi => absurd hi (Nat.not_lt_zero _)) hsize
    (by show (off * 4) % 4294967296 + _ < _; omega)
  constructor
  · intro hj
    rw [hA hj]
    omega
  · intro i hi
    have hb := hB i hi
    rw [prepDmaList_j] at hi
    have hle := hbelow i (by omega)
    have e1 : ((prepDmaList um km off write).llist i).carrier_start =
        ((forLoop km.physicalAddress write
          { llist := km.buffer, dev_off := (off * 4) % 4294967296, j := 0, sg_size := 0,
            sg_addr_l := 0 } um.sg).llist i).carrier_start := by
      unfold prepDmaList
      rw [markLast_carrier_start]
    have e2 : ((prepDmaList um km off write).llist i).length =
        ((forLoop km.physicalAddress write
          { llist := km.buffer, dev_off := (off * 4) % 4294967296, j := 0, sg_size := 0,
            sg_addr_l := 0 } um.sg).llist i).length := by
      unfold prepDmaList
      rw [markLast_length]
    rw [← e1, ← e2] at hle
    omega

/-- C3, counterexample to the claim as stated: with start offset `0x3FFFFFFF` and two
8-byte entries the first descriptor starts at
`0xFFFFFFFC` and the second at `4`: the device offset wraps at `2^32`, so the values
decrease and the second is not the first plus its length. -/
theorem prepDmaList_carrier_start_wraps :
    (prepDmaList { sg := [{ addr := 0x10000, size := 8 }, { addr := 0x20000, size := 8 }] }
      zeroKernelMemory 0x3FFFFFFF true).j = 2 ∧
    ((prepDmaList { sg := [{ addr := 0x10000, size := 8 }, { addr := 0x20000, size := 8 }] }
      zeroKernelMemory 0x3FFFFFFF true).llist 0).carrier_start = 4294967292 ∧
    ((prepDmaList { sg := [{ addr := 0x10000, size := 8 }, { addr := 0x20000, size := 8 }] }
      zeroKernelMemory 0x3FFFFFFF true).llist 0).length = 8 ∧
    ((prepDmaList { sg := [{ addr := 0x10000, size := 8 }, { addr := 0x20000, size := 8 }] }
      zeroKernelMemory 0x3FFFFFFF true).llist 1).carrier_start = 4 ∧
    ¬ (((prepDmaList { sg := [{ addr := 0x10000, size := 8 }, { addr := 0x20000, size := 8 }] }
        zeroKernelMemory 0x3FFFFFFF true).llist 0).carrier_start ≤
      ((prepDmaList { sg := [{ addr := 0x10000, size := 8 }, { addr := 0x20000, size := 8 }] }
        zeroKernelMemory 0x3FFFFFFF true).llist 1).carrier_start) := by
  have e1 : prepDmaList
      { sg := [{ addr := 0x10000, size := 8 }, { addr := 0x20000, size := 8 }] }
      zeroKernelMemory 0x3FFFFFFF true =
      markLast true
        (chunkBody zeroKernelMemory.physicalAddress ((0x20000 / 4294967296) % 4294967296)
          true
          { (chunkBody zeroKernelMemory.physicalAddress
              ((0x10000 / 4294967296) % 4294967296) true
              { llist := zeroKernelMemory.buffer, dev_off := (0x3FFFFFFF * 4) % 4294967296,
                j := 0, sg_size := toInt32 8, sg_addr_l := 0x10000 % 4294967296 }) with
            sg_size := toInt32 8, sg_addr_l := 0x20000 % 4294967296 }) := by
    unfold prepDmaList
    simp only [forLoop]
    rw [sgStep_one_chunk _ _ _ _ (by decide) (by decide),
      sgStep_one_chunk _ _ _ _ (by decide) (by decide)]
  rw [e1]
  simp [markLast, chunkBody, setSlot, lastIndex, toUInt32, toInt32, wrapInt32, writeBit]

/-- C10 at an entry that crosses a 4 GiB boundary: for the entry at `0xFFFFF000` of 8192
bytes, the second chunk (index 1) lies at `0x100000000`, but the descriptor records high
half 0 and low half 0: the low half wraps without a carry into the high half. -/
theorem prepDmaList_host_address_carry_lost :
    (prepDmaList { sg := [{ addr := 0xFFFFF000, size := 8192 }] } zeroKernelMemory 0
      true).j = 2 ∧
    ((prepDmaList { sg := [{ addr := 0xFFFFF000, size := 8192 }] } zeroKernelMemory 0
      true).llist 1).host_start_h = 0 ∧
    ((prepDmaList { sg := [{ addr := 0xFFFFF000, size := 8192 }] } zeroKernelMemory 0
      true).llist 1).host_start_l = 0 ∧
    ((prepDmaList { sg := [{ addr := 0xFFFFF000, size := 8192 }] } zeroKernelMemory 0
      true).llist 1).host_start_h * 4294967296 +
    ((prepDmaList { sg := [{ addr := 0xFFFFF000, size := 8192 }] } zeroKernelMemory 0
      true).llist 1).host_start_l ≠ 0xFFFFF000 + 4096 * 1 := by
  have e : prepDmaList { sg := [{ addr := 0xFFFFF000, size := 8192 }] } zeroKernelMemory 0
      true =
      markLast true
        (chunkBody zeroKernelMemory.physicalAddress ((0xFFFFF000 / 4294967296) % 4294967296)
          true
          (chunkBody zeroKernelMemory.physicalAddress
            ((0xFFFFF000 / 4294967296) % 4294967296) true
            { llist := zeroKernelMemory.buffer, dev_off := (0 * 4) % 4294967296, j := 0,
              sg_size := toInt32 8192, sg_addr_l := 0xFFFFF000 % 4294967296 })) := by
    unfold prepDmaList
    simp only [forLoop]
    rw [sgStep_two_chunks _ _ _ _ (by decide) (by decide)]
  rw [e]
  refine ⟨by simp [markLast, chunkBody], by simp [markLast, chunkBody, setSlot, lastIndex],
    by simp [markLast, chunkBody, setSlot, lastIndex], ?_⟩
  simp [markLast, chunkBody, setSlot, lastIndex]

/-- C4 at a buffer pinned as one contiguous segment of 8192 bytes: `writeDma` and `readDma`
request `sizeof * getSGcount()` = 28 bytes, one descriptor slot, and `prepDmaList` writes
two descriptors. -/
theorem writeDma_descriptor_buffer_too_small :
    sizeofDesc * (contiguousDevice.mapUserMemory (2048 * 4)).getSGcount / sizeofDesc = 1 ∧
    (writeDmaList contiguousDevice 0 2048).j = 2 ∧
    (readDmaList contiguousDevice 0 2048).j = 2 := by
  have ew : writeDmaList contiguousDevice 0 2048 =
      prepDmaList { sg := [{ addr := 0x10000, size := 8192 }] } zeroKernelMemory 0 true := rfl
  have er : readDmaList contiguousDevice 0 2048 =
      prepDmaList { sg := [{ addr := 0x10000, size := 8192 }] } zeroKernelMemory 0 false := rfl
  have e1 : ∀ w : Bool,
      (prepDmaList { sg := [{ addr := 0x10000, size := 8192 }] } zeroKernelMemory 0 w).j =
        2 := by
    intro w
    unfold prepDmaList
    simp only [forLoop]
    rw [sgStep_two_chunks _ _ _ _ (by decide) (by decide)]
    rfl
  refine ⟨by decide, ?_, ?_⟩
  · rw [ew]; exact e1 true
  · rw [er]; exact e1 false

/-! ## The start-address registers -/

theorem prepDmaList_first_carrier_start (um : UserMemory) (km : KernelMemory) (off : Nat)
    (w : Bool) (hne : um.sg ≠ []) :
    ((prepDmaList um km off w).llist 0).carrier_start = (off * 4) % 4294967296 := by
  have hlen : 0 < um.sg.length := List.length_pos.mpr hne
  have hj := prepDmaList_j_ge um km off w
  rw [prepDmaList_j] at hj
  obtain ⟨_, _, h3, _⟩ := prepDmaList_carrierInv um km off w
  unfold prepDmaList
  rw [markLast_carrier_start]
  exact (h3 (by omega)).1

theorem storeWords_below (vs : List Nat) (m : Nat → Nat) (o x : Nat) (h : x < o) :
    storeWords m o vs x = m x := by
  induction vs generalizing m o with
  | nil => rfl
  | cons v vs ih =>
    simp only [storeWords]
    rw [ih _ _ (by omega)]
    unfold storeWord
    rw [if_neg (by omega)]

theorem storeWords_descWords_first (m : Nat → Nat) (o : Nat) (d : dma_linked_list) :
    storeWords m o (descWords d) o = d.carrier_start := by
  show storeWords (storeWord m o d.carrier_start) (o + 1) _ o = d.carrier_start
  rw [storeWords_below _ _ _ _ (by omega)]
  unfold storeWord
  rw [if_pos rfl]

/-- C9 (amended): in a permitted transfer with a non-empty scatter-gather list, `writeDma`
and `readDma` copy the seven words of the first descriptor of the chain to the registers
starting at `DMACSTARTR`; the word that lands in `DMACSTARTR` itself is that descriptor's
`carrier_start`, the device offset `off * 4` modulo `2^32`. -/
theorem dma_start_register_gets_first_descriptor (rm : DmaRegMap) (gn : GennumRegMap)
    (spec : SpecDevice) (off words : Nat) (s : SpecState)
    (hst : toInt32 (s.hw.bar0 rm.DMASTATR) = rm.DMAIDLE ∨
      toInt32 (s.hw.bar0 rm.DMASTATR) = rm.DMADONE ∨
      toInt32 (s.hw.bar0 rm.DMASTATR) = rm.DMAABORTED)
    (hne : (spec.mapUserMemory (words * 4)).sg ≠ []) :
    Action.memcpy Bar.bar0 rm.DMACSTARTR (descWords ((writeDmaList spec off words).llist 0))
      ∈ (writeDma rm gn spec off words s).trace ∧
    storeWords s.hw.bar0 rm.DMACSTARTR (descWords ((writeDmaList spec off words).llist 0))
      rm.DMACSTARTR = (off * 4) % 4294967296 ∧
    Action.memcpy Bar.bar0 rm.DMACSTARTR (descWords ((readDmaList spec off words).llist 0))
      ∈ (readDma rm gn spec off words s).trace ∧
    storeWords s.hw.bar0 rm.DMACSTARTR (descWords ((readDmaList spec off words).llist 0))
      rm.DMACSTARTR = (off * 4) % 4294967296 := by
  have hal : statusAllowed rm (toInt32 (s.hw.bar0 rm.DMASTATR)) = true := by
    simp only [statusAllowed, Bool.or_eq_true, beq_iff_eq]
    tauto
  refine ⟨?_, ?_, ?_, ?_⟩
  · simp [writeDma, hal, getDmaStatus, read32, SpecState.log, Hardware.load,
      memcpyFirst, startDma, write32, waitForInterrupt]
  · rw [storeWords_descWords_first]
    exact prepDmaList_first_carrier_start _ _ off true hne
  · simp [readDma, hal, getDmaStatus, read32, SpecState.log, Hardware.load,
      memcpyFirst, startDma, write32, waitForInterrupt]
  · rw [storeWords_descWords_first]
    exact prepDmaList_first_carrier_start _ _ off false hne

theorem writeDma_hw_permitted (rm : DmaRegMap) (gn : GennumRegMap) (spec : SpecDevice)
    (off words : Nat) (s : SpecState)
    (hal : statusAllowed rm (toInt32 (s.hw.bar0 rm.DMASTATR)) = true) :
    (writeDma rm gn spec off words s).hw =
      spec.waitForInterrupt 0
        { bar0 := storeWord
            (storeWords s.hw.bar0 rm.DMACSTARTR
              (descWords ((writeDmaList spec off words).llist 0)))
            rm.DMACTRLR 1
          bar4 := s.hw.bar4
          data := s.hw.data } := by
  simp [writeDma, hal, getDmaStatus, read32, SpecState.log, Hardware.load, memcpyFirst,
    startDma, write32, waitForInterrupt, Hardware.store]

/-- C9, counterexample to the claim as stated: a permitted `writeDma` at word offset 1 of
a one-word buffer, with the descriptor
buffer at physical address `0x2000`, leaves 4 (the device offset) in `DMACSTARTR`, not
`0x2000`. -/
theorem writeDma_start_register_not_chain_address :
    (contiguousDevice.allocKernelMemory
      (sizeofDesc * (contiguousDevice.mapUserMemory (1 * 4)).getSGcount)).physicalAddress
      = 0x2000 ∧
    (writeDma specDmaRegMap gn4124RegMap contiguousDevice 1 1 (constState 0)).hw.bar0
      specDmaRegMap.DMACSTARTR = 4 ∧
    (writeDma specDmaRegMap gn4124RegMap contiguousDevice 1 1 (constState 0)).hw.bar0
      specDmaRegMap.DMACSTARTR ≠
    (contiguousDevice.allocKernelMemory
      (sizeofDesc * (contiguousDevice.mapUserMemory (1 * 4)).getSGcount)).physicalAddress := by
  have hal : statusAllowed specDmaRegMap
      (toInt32 ((constState 0).hw.bar0 specDmaRegMap.DMASTATR)) = true := by decide
  have hw := writeDma_hw_permitted specDmaRegMap gn4124RegMap contiguousDevice 1 1
    (constState 0) hal
  have hcs : ((writeDmaList contiguousDevice 1 1).llist 0).carrier_start = 4 :=
    prepDmaList_first_carrier_start (contiguousDevice.mapUserMemory (1 * 4))
      (contiguousDevice.allocKernelMemory
        (sizeofDesc * (contiguousDevice.mapUserMemory (1 * 4)).getSGcount)) 1 true
      (by decide)
  have h4 : (writeDma specDmaRegMap gn4124RegMap contiguousDevice 1 1 (constState 0)).hw.bar0
      specDmaRegMap.DMACSTARTR = 4 := by
    rw [hw]
    show storeWord
      (storeWords (constState 0).hw.bar0 2
        (descWords ((writeDmaList contiguousDevice 1 1).llist 0))) 0 1 2 = 4
    have h2 : storeWord
        (storeWords (constState 0).hw.bar0 2
          (descWords ((writeDmaList contiguousDevice 1 1).llist 0))) 0 1 2 =
        storeWords (constState 0).hw.bar0 2
          (descWords ((writeDmaList contiguousDevice 1 1).llist 0)) 2 := by
      unfold storeWord
      rw [if_neg (by decide)]
    rw [h2, storeWords_descWords_first]
    exact hcs
  refine ⟨rfl, h4, ?_⟩
  rw [h4]
  show (4 : Nat) ≠ 0x2000
  decide

/-! ## Bring-up sequence -/

theorem applyWrites_eq_lastWrite (ws : List (Nat × Nat)) (m : Nat → Nat) (x : Nat) :
    applyWrites m ws x = (lastWrite x ws).getD (m x) := by
  induction ws generalizing m with
  | nil => rfl
  | cons w ws ih =>
    simp only [applyWrites, lastWrite]
    rw [ih]
    cases hl : lastWrite x ws with
    | some v => simp
    | none =>
      by_cases hx : x = w.1
      · simp [hx, storeWord]
      · simp [hx, storeWord]

theorem applyWrites_idem (ws : List (Nat × Nat)) (m : Nat → Nat) :
    applyWrites (applyWrites m ws) ws = applyWrites m ws := by
  funext x
  rw [applyWrites_eq_lastWrite ws (applyWrites m ws), applyWrites_eq_lastWrite ws m]
  cases lastWrite x ws <;> simp

theorem lastWrite_none (x : Nat) (ws : List (Nat × Nat))
    (h : ∀ w ∈ ws, w.1 ≠ x) : lastWrite x ws = none := by
  induction ws with
  | nil => rfl
  | cons w ws ih =>
    simp only [lastWrite]
    rw [ih (fun v hv => h v (List.mem_cons_of_mem _ hv))]
    have := h w (List.mem_cons_self _ _)
    simp [Ne.symm this]

theorem applyWrites_untouched (ws : List (Nat × Nat)) (m : Nat → Nat) (x : Nat)
    (h : ∀ w ∈ ws, w.1 ≠ x) : applyWrites m ws x = m x := by
  rw [applyWrites_eq_lastWrite, lastWrite_none x ws h]
  rfl

theorem applyWrites_append (ws vs : List (Nat × Nat)) (m : Nat → Nat) :
    applyWrites m (ws ++ vs) = applyWrites (applyWrites m ws) vs := by
  induction ws generalizing m with
  | nil => rfl
  | cons w ws ih =>
    show applyWrites (storeWord m w.1 w.2) (ws ++ vs) = _
    exact ih _

theorem storeWord_same_value (m : Nat → Nat) (o v : Nat) (h : m o = v) :
    storeWord m o v = m := by
  funext x
  unfold storeWord
  split
  · next hx => rw [hx, h]
  · rfl

theorem activateMsi_hw (gn : GennumRegMap) (s : SpecState) :
    (activateMsi gn s).hw =
      { bar0 := s.hw.bar0
        bar4 := storeWord s.hw.bar4 (gn.GNPPCI_MSI_CONTROL / 4) 0x00A55805
        data := s.hw.data } := by
  unfold activateMsi
  by_cases hc : (read32 Bar.bar4 (gn.GNPPCI_MSI_CONTROL / 4) s).1 = 0x00A55805
  · rw [if_neg (not_not.mpr hc)]
    have e : s.hw.bar4 (gn.GNPPCI_MSI_CONTROL / 4) = 0x00A55805 := hc
    rw [storeWord_same_value _ _ _ e]
    rfl
  · rw [if_pos hc]
    rfl

theorem resetIntxVectors_hw (gn : GennumRegMap) (s : SpecState) :
    (resetIntxVectors gn s).hw =
      { bar0 := s.hw.bar0
        bar4 := applyWrites s.hw.bar4 (configureWritesBefore gn).tail
        data := s.hw.data } := rfl

theorem configureGpio_hw (gn : GennumRegMap) (s : SpecState) :
    (configureGpio gn s).hw =
      { bar0 := s.hw.bar0
        bar4 := applyWrites s.hw.bar4
          (configureWritesAfter gn (s.hw.bar4 (gn.GNPPCI_MSI_DATA / 4) % 4))
        data := s.hw.data } := rfl

theorem configure_hw (gn : GennumRegMap) (s : SpecState) :
    (configure gn s).hw =
      { bar0 := s.hw.bar0
        bar4 := applyWrites s.hw.bar4
          (configureWritesBefore gn ++
            configureWritesAfter gn
              (applyWrites s.hw.bar4 (configureWritesBefore gn)
                (gn.GNPPCI_MSI_DATA / 4) % 4))
        data := s.hw.data } := by
  unfold configure
  rw [configureGpio_hw, resetIntxVectors_hw, activateMsi_hw, applyWrites_append]
  rfl

theorem configureOffsets_cfg (gn : GennumRegMap) (k : Nat) (hk : k < 4) :
    gn.GNINT_CFG k / 4 ∈ configureOffsets gn := by
  interval_cases k <;> simp only [configureOffsets, List.mem_cons, true_or, or_true]

theorem configureWrites_offsets (gn : GennumRegMap) (k : Nat) (hk : k < 4)
    (hdata : ∀ a ∈ configureOffsets gn, a ≠ gn.GNPPCI_MSI_DATA / 4) :
    ∀ w ∈ configureWritesBefore gn ++ configureWritesAfter gn k,
      w.1 ≠ gn.GNPPCI_MSI_DATA / 4 := by
  intro w hw
  apply hdata
  have hcfg := configureOffsets_cfg gn k hk
  simp only [configureWritesBefore, configureWritesAfter, List.cons_append, List.nil_append,
    List.mem_cons, List.mem_singleton, List.not_mem_nil, or_false] at hw
  rcases hw with h | h | h | h | h | h | h | h | h | h | h | h | h | h | h | h | h | h | h | h
  all_goals first
    | (rw [h]; exact hcfg)
    | (rw [h]; simp only [configureOffsets, List.mem_cons, true_or, or_true])

/-- C7: when the MSI data register is not one of the registers `configure` stores to,
running `configure` twice in succession leaves the same registers (and the same hardware
state altogether) as running it once, from every initial state. -/
theorem configure_idempotent (gn : GennumRegMap) (s : SpecState)
    (hdata : ∀ a ∈ configureOffsets gn, a ≠ gn.GNPPCI_MSI_DATA / 4) :
    (configure gn (configure gn s)).hw = (configure gn s).hw := by
  have hB : ∀ m : Nat → Nat,
      applyWrites m (configureWritesBefore gn) (gn.GNPPCI_MSI_DATA / 4) =
        m (gn.GNPPCI_MSI_DATA / 4) := by
    intro m
    apply applyWrites_untouched
    intro w hw
    exact configureWrites_offsets gn 0 (by omega) hdata w (List.mem_append_left _ hw)
  have hk : s.hw.bar4 (gn.GNPPCI_MSI_DATA / 4) % 4 < 4 := Nat.mod_lt _ (by omega)
  have h1 := configure_hw gn s
  have h2 := configure_hw gn (configure gn s)
  rw [h2, h1]
  simp only [hB]
  have hm : applyWrites s.hw.bar4
      (configureWritesBefore gn ++
        configureWritesAfter gn (s.hw.bar4 (gn.GNPPCI_MSI_DATA / 4) % 4))
      (gn.GNPPCI_MSI_DATA / 4) = s.hw.bar4 (gn.GNPPCI_MSI_DATA / 4) :=
    applyWrites_untouched _ _ _ (configureWrites_offsets gn _ hk hdata)
  rw [hm, applyWrites_idem]

/-! ## Instances at concrete inputs -/

theorem prepDmaList_exactly_one_last_witness :
    pageAndByteMemory.sg ≠ [] ∧
    0 < (prepDmaList pageAndByteMemory zeroKernelMemory 0 true).j ∧
    ((prepDmaList pageAndByteMemory zeroKernelMemory 0 true).llist
      ((prepDmaList pageAndByteMemory zeroKernelMemory 0 true).j - 1)).attr % 2 = 0 ∧
    ((prepDmaList pageAndByteMemory zeroKernelMemory 0 true).llist
      ((prepDmaList pageAndByteMemory zeroKernelMemory 0 true).j - 1)).host_next_l = 0 :=
  ⟨by decide,
    (prepDmaList_exactly_one_last pageAndByteMemory zeroKernelMemory 0 true (by decide)).1,
    (prepDmaList_exactly_one_last pageAndByteMemory zeroKernelMemory 0 true (by decide)).2.1,
    (prepDmaList_exactly_one_last pageAndByteMemory zeroKernelMemory 0 true (by decide)).2.2.1⟩

theorem prepDmaList_descriptors_per_entry_witness :
    twoPageEntry.size < 2147483648 ∧
    (4096 < twoPageEntry.size →
      (sgStep 0x2000 true zeroPrepState twoPageEntry).j =
        zeroPrepState.j + (twoPageEntry.size + 4095) / 4096 ∧
      ((sgStep 0x2000 true zeroPrepState twoPageEntry).llist
        ((sgStep 0x2000 true zeroPrepState twoPageEntry).j - 1)).length =
        if twoPageEntry.size % 4096 = 0 then 4096 else twoPageEntry.size % 4096) :=
  ⟨by decide,
    (prepDmaList_descriptors_per_entry 0x2000 true zeroPrepState twoPageEntry 0x10000
      zeroKernelMemory (by decide)).2.1⟩

theorem dma_rejected_when_busy_witness :
    toInt32 ((constState 2).hw.bar0 specDmaRegMap.DMASTATR) ≠ specDmaRegMap.DMAIDLE ∧
    toInt32 ((constState 2).hw.bar0 specDmaRegMap.DMASTATR) ≠ specDmaRegMap.DMADONE ∧
    toInt32 ((constState 2).hw.bar0 specDmaRegMap.DMASTATR) ≠ specDmaRegMap.DMAABORTED ∧
    (writeDma specDmaRegMap gn4124RegMap contiguousDevice 0 1 (constState 2)).hw =
      (constState 2).hw ∧
    (readDma specDmaRegMap gn4124RegMap contiguousDevice 0 1 (constState 2)).hw =
      (constState 2).hw :=
  ⟨by decide, by decide, by decide,
    (dma_rejected_when_busy specDmaRegMap gn4124RegMap contiguousDevice 0 1 (constState 2)
      (by decide) (by decide) (by decide)).1,
    (dma_rejected_when_busy specDmaRegMap gn4124RegMap contiguousDevice 0 1 (constState 2)
      (by decide) (by decide) (by decide)).2.2.1⟩

theorem dma_permitted_sequence_witness :
    (toInt32 ((constState 0).hw.bar0 specDmaRegMap.DMASTATR) = specDmaRegMap.DMAIDLE ∨
      toInt32 ((constState 0).hw.bar0 specDmaRegMap.DMASTATR) = specDmaRegMap.DMADONE ∨
      toInt32 ((constState 0).hw.bar0 specDmaRegMap.DMASTATR) = specDmaRegMap.DMAABORTED) ∧
    (writeDma specDmaRegMap gn4124RegMap contiguousDevice 0 1 (constState 0)).trace =
      (constState 0).trace ++
        [Action.read32 Bar.bar0 specDmaRegMap.DMASTATR,
         Action.mapUserMemory (1 * 4),
         Action.allocKernelMemory
          (sizeofDesc * (contiguousDevice.mapUserMemory (1 * 4)).getSGcount),
         Action.syncKernelMemory,
         Action.memcpy Bar.bar0 specDmaRegMap.DMACSTARTR
          (descWords ((writeDmaList contiguousDevice 0 1).llist 0)),
         Action.write32 Bar.bar0 specDmaRegMap.DMACTRLR 1,
         Action.waitForInterrupt 0,
         Action.read32 Bar.bar4 (gn4124RegMap.GNGPIO_INT_STATUS / 4),
         Action.deleteKernelMemory,
         Action.deleteUserMemory] :=
  ⟨by decide,
    (dma_permitted_sequence specDmaRegMap gn4124RegMap contiguousDevice 0 1 (constState 0)
      (by decide)).1⟩

theorem configure_idempotent_witness :
    (∀ a ∈ configureOffsets gn4124RegMap, a ≠ gn4124RegMap.GNPPCI_MSI_DATA / 4) ∧
    (configure gn4124RegMap (configure gn4124RegMap (constState 7))).hw =
      (configure gn4124RegMap (constState 7)).hw :=
  ⟨by decide, configure_idempotent gn4124RegMap (constState 7) (by decide)⟩

theorem dma_start_register_gets_first_descriptor_witness :
    (toInt32 ((constState 0).hw.bar0 specDmaRegMap.DMASTATR) = specDmaRegMap.DMAIDLE ∨
      toInt32 ((constState 0).hw.bar0 specDmaRegMap.DMASTATR) = specDmaRegMap.DMADONE ∨
      toInt32 ((constState 0).hw.bar0 specDmaRegMap.DMASTATR) = specDmaRegMap.DMAABORTED) ∧
    (contiguousDevice.mapUserMemory (1 * 4)).sg ≠ [] ∧
    storeWords (constState 0).hw.bar0 specDmaRegMap.DMACSTARTR
      (descWords ((writeDmaList contiguousDevice 1 1).llist 0))
      specDmaRegMap.DMACSTARTR = (1 * 4) % 4294967296 :=
  ⟨by decide, by decide,
    (dma_start_register_gets_first_descriptor specDmaRegMap gn4124RegMap contiguousDevice 1 1
      (constState 0) (by decide) (by decide)).2.1⟩

theorem prepDmaList_carrier_start_witness :
    (∀ e ∈ twoSegmentMemory.sg, e.size < 2147483648) ∧
    1 * 4 + (twoSegmentMemory.sg.map SGEntry.size).sum < 4294967296 ∧
    ((prepDmaList twoSegmentMemory zeroKernelMemory 1 true).llist (0 + 1)).carrier_start =
      ((prepDmaList twoSegmentMemory zeroKernelMemory 1 true).llist 0).carrier_start +
        ((prepDmaList twoSegmentMemory zeroKernelMemory 1 true).llist 0).length ∧
    ((prepDmaList twoSegmentMemory zeroKernelMemory 1 true).llist 0).carrier_start ≤
      ((prepDmaList twoSegmentMemory zeroKernelMemory 1 true).llist (0 + 1)).carrier_start :=
  ⟨by decide, by decide,
    ((prepDmaList_carrier_start twoSegmentMemory zeroKernelMemory 1 true).2.2
      (by decide) (by decide)).2 0
      (lt_of_lt_of_le (by decide : 0 + 1 < twoSegmentMemory.sg.length)
        (prepDmaList_j_ge twoSegmentMemory zeroKernelMemory 1 true))⟩

end SpecController
